import Mathlib

/-!
Verification of the resilience gate (bulkhead + circuit breaker) of the
Microservices_Patterns repository.

The definitions below are a shallow embedding of the two classes in
`09-bulkhead-pattern/gateway-with-bulkhead.js` and the combined-pattern
gateway file (`CircuitBreaker`, `Bulkhead`, and the route handlers that
compose them).  JavaScript numbers that only ever hold integers
(counters, timestamps in milliseconds) are modelled as `Nat` or `Int`;
the one float-valued field (`averageResponseTime`, produced by a
division) and the response-time samples are modelled as `ℚ`.  The
resolver closures stored in `queuedRequests` are modelled by numeric
waiter ids issued in arrival order; two observation logs (`arrivedLog`,
`admittedLog`) record, without influencing any control flow, the order in
which waiters are enqueued and resumed.

Asynchronous executions are modelled as sequences of atomic events: the
synchronous prefix of an `execute` call (admission / gating) is one
event, and the synchronous completion block (metrics update, `finally`
release, breaker outcome recording) is another.  In Node's event loop
each of these code regions runs without interleaving, so the event model
is faithful.
-/

namespace MicroPatterns

/-- The circuit-breaker states: the strings `CLOSED`, `OPEN`, `HALF_OPEN`
in the source (`opened` stands for `OPEN`, which is a Lean keyword). -/
inductive CBState where
  | closed
  | opened
  | halfOpen
deriving Repr, DecidableEq

/-- The `metrics` object of `CircuitBreaker`: `totalAttempts`,
`totalFailures`, `totalRejections`, and the `stateChanges` list of
`{state, timestamp}` records pushed by `changeState`. -/
structure CBMetrics where
  totalAttempts : Nat
  totalFailures : Nat
  totalRejections : Nat
  stateChanges : List (CBState × Nat)
deriving Repr, DecidableEq

/-- The mutable fields of a `CircuitBreaker` instance. -/
structure CircuitBreaker where
  name : String
  state : CBState
  failureCount : Nat
  failureThreshold : Nat
  nextAttempt : Nat
  timeout : Nat
  successCount : Nat
  metrics : CBMetrics
deriving Repr, DecidableEq

/-- `new CircuitBreaker(name, threshold, timeout)` evaluated at time
`now` (`this.nextAttempt = Date.now()`).  The source defaults are
`threshold = 5`, `timeout = 30000`. -/
def cbNew (name : String) (threshold timeout now : Nat) : CircuitBreaker :=
  { name := name
  , state := CBState.closed
  , failureCount := 0
  , failureThreshold := threshold
  , nextAttempt := now
  , timeout := timeout
  , successCount := 0
  , metrics := { totalAttempts := 0, totalFailures := 0, totalRejections := 0, stateChanges := [] } }

/-- `changeState(newState)`: sets `this.state` and pushes
`{state: newState, timestamp: new Date()}` onto `metrics.stateChanges`. -/
def changeState (cb : CircuitBreaker) (newState : CBState) (now : Nat) : CircuitBreaker :=
  { cb with
      state := newState
    , metrics := { cb.metrics with stateChanges := cb.metrics.stateChanges ++ [(newState, now)] } }

/-- `onSuccess()`: resets `failureCount` to 0 and, if the state is
`HALF_OPEN`, transitions to `CLOSED`. -/
def onSuccess (cb : CircuitBreaker) (now : Nat) : CircuitBreaker :=
  let c1 := { cb with failureCount := 0 }
  if c1.state = CBState.halfOpen then changeState c1 CBState.closed now else c1

/-- `onFailure()`: increments `metrics.totalFailures` and `failureCount`;
if the incremented count reaches `failureThreshold`, transitions to
`OPEN` and sets `nextAttempt = Date.now() + this.timeout`. -/
def onFailure (cb : CircuitBreaker) (now : Nat) : CircuitBreaker :=
  let c1 := { cb with
      failureCount := cb.failureCount + 1
    , metrics := { cb.metrics with totalFailures := cb.metrics.totalFailures + 1 } }
  if c1.failureThreshold ≤ c1.failureCount then
    { changeState c1 CBState.opened now with nextAttempt := now + c1.timeout }
  else c1

/-- Outcome of the synchronous gate at the top of `CircuitBreaker.execute`. -/
inductive GateResult where
  | reject
  | allow
deriving Repr, DecidableEq

/-- Lines 42–50 of `CircuitBreaker.execute`: increment
`metrics.totalAttempts`; if the state is `OPEN` and `Date.now()` is still
before `nextAttempt`, count a rejection and throw (`reject`); if the
state is `OPEN` but the cooldown has elapsed, transition to `HALF_OPEN`
and fall through to running `fn` (`allow`); otherwise run `fn`. -/
def cbGate (cb : CircuitBreaker) (now : Nat) : CircuitBreaker × GateResult :=
  let c1 := { cb with metrics := { cb.metrics with totalAttempts := cb.metrics.totalAttempts + 1 } }
  if c1.state = CBState.opened then
    if now < c1.nextAttempt then
      ({ c1 with metrics := { c1.metrics with totalRejections := c1.metrics.totalRejections + 1 } },
       GateResult.reject)
    else
      (changeState c1 CBState.halfOpen now, GateResult.allow)
  else (c1, GateResult.allow)

/-- Result of a whole `CircuitBreaker.execute` call: either the
circuit-open throw, or the wrapped `fn` ran with the given outcome. -/
inductive CBCallResult where
  | rejectedOpen
  | ran (success : Bool)
deriving Repr, DecidableEq

/-- A whole `CircuitBreaker.execute(fn)` call, serialised: the gate runs
at time `t1`; when allowed, `fn` runs and settles at time `t2` with the
oracle outcome `b`, recorded by `onSuccess` / `onFailure`. -/
def cbExecute (cb : CircuitBreaker) (t1 t2 : Nat) (b : Bool) : CircuitBreaker × CBCallResult :=
  match cbGate cb t1 with
  | (cb1, GateResult.reject) => (cb1, CBCallResult.rejectedOpen)
  | (cb1, GateResult.allow) =>
      ((if b then onSuccess cb1 t2 else onFailure cb1 t2), CBCallResult.ran b)

/-- `recordFailures cb ts`: `onFailure` recorded once per time in `ts`,
in order — a run of consecutive failing outcomes. -/
def recordFailures (cb : CircuitBreaker) (ts : List Nat) : CircuitBreaker :=
  ts.foldl onFailure cb

/-- A breaker together with the number of gate-allowed attempts whose
outcome has not yet been recorded.  Used to replay interleaved
executions of overlapping `execute` calls. -/
structure CBSys where
  breaker : CircuitBreaker
  pendingOutcomes : Nat
deriving Repr, DecidableEq

/-- Interleaving events on one breaker: the synchronous gate of some
`execute` call, or the completion of some previously allowed call. -/
inductive CBEvent where
  | gate (now : Nat)
  | outcome (success : Bool) (now : Nat)
deriving Repr, DecidableEq

/-- One atomic event on a breaker.  An `outcome` event is only possible
while some allowed attempt is in flight. -/
def cbSysStep (s : CBSys) : CBEvent → Option CBSys
  | CBEvent.gate now =>
      match cbGate s.breaker now with
      | (cb1, GateResult.reject) => some { breaker := cb1, pendingOutcomes := s.pendingOutcomes }
      | (cb1, GateResult.allow) => some { breaker := cb1, pendingOutcomes := s.pendingOutcomes + 1 }
  | CBEvent.outcome b now =>
      if 0 < s.pendingOutcomes then
        some { breaker := (if b then onSuccess s.breaker now else onFailure s.breaker now)
             , pendingOutcomes := s.pendingOutcomes - 1 }
      else none

/-- Replay a sequence of breaker events. -/
def cbSysRun (s : CBSys) : List CBEvent → Option CBSys
  | [] => some s
  | e :: es =>
      match cbSysStep s e with
      | some s1 => cbSysRun s1 es
      | none => none

/-- The `metrics` object of `Bulkhead`. -/
structure BulkMetrics where
  totalRequests : Nat
  successfulRequests : Nat
  failedRequests : Nat
  rejectedRequests : Nat
  averageResponseTime : ℚ
  responseTimes : List ℚ
deriving Repr, DecidableEq

/-- The mutable fields of a `Bulkhead` instance.  `queuedRequests`
stores resolver closures in the source; here each waiter is the numeric
id it was issued on arrival (`nextWaiterId`).  `arrivedLog` and
`admittedLog` are observation logs of the ids enqueued and the ids
resumed by a release; they never influence control flow. -/
structure BulkheadState where
  name : String
  maxConcurrent : Nat
  maxQueue : Nat
  activeRequests : Int
  queuedRequests : List Nat
  metrics : BulkMetrics
  nextWaiterId : Nat
  arrivedLog : List Nat
  admittedLog : List Nat
deriving Repr, DecidableEq

/-- `new Bulkhead(name, maxConcurrent, maxQueue)`.  The source defaults
are `maxConcurrent = 5`, `maxQueue = 20`. -/
def bulkheadNew (name : String) (maxConcurrent maxQueue : Nat) : BulkheadState :=
  { name := name
  , maxConcurrent := maxConcurrent
  , maxQueue := maxQueue
  , activeRequests := 0
  , queuedRequests := []
  , metrics :=
    { totalRequests := 0, successfulRequests := 0, failedRequests := 0
    , rejectedRequests := 0, averageResponseTime := 0, responseTimes := [] }
  , nextWaiterId := 0
  , arrivedLog := []
  , admittedLog := [] }

/-- How the synchronous prefix of `Bulkhead.execute` disposed of the
caller: the capacity throw, the enqueue-and-await, or immediate entry. -/
inductive CallResult where
  | rejected
  | queued
  | admitted
deriving Repr, DecidableEq

/-- The synchronous prefix of `Bulkhead.execute(fn)`: increment
`metrics.totalRequests`; if `activeRequests >= maxConcurrent` and
`queuedRequests.length >= maxQueue`, count a rejection and throw; else if
`activeRequests >= maxConcurrent`, push a resolver (a fresh waiter id)
onto `queuedRequests` and await it; else increment `activeRequests` and
start `fn`. -/
def bulkCall (s : BulkheadState) : BulkheadState × CallResult :=
  let m := { s.metrics with totalRequests := s.metrics.totalRequests + 1 }
  if (s.maxConcurrent : Int) ≤ s.activeRequests ∧ s.maxQueue ≤ s.queuedRequests.length then
    ({ s with metrics := { m with rejectedRequests := m.rejectedRequests + 1 } },
     CallResult.rejected)
  else if (s.maxConcurrent : Int) ≤ s.activeRequests then
    ({ s with
        metrics := m
      , queuedRequests := s.queuedRequests ++ [s.nextWaiterId]
      , nextWaiterId := s.nextWaiterId + 1
      , arrivedLog := s.arrivedLog ++ [s.nextWaiterId] },
     CallResult.queued)
  else
    ({ s with metrics := m, activeRequests := s.activeRequests + 1 }, CallResult.admitted)

/-- The completion block of `Bulkhead.execute`, run when one of the
active calls settles (`success`, with response time `rt`): on success,
increment `successfulRequests`, push the sample, and recompute
`averageResponseTime` as `responseTimes.reduce((a,b)=>a+b,0) /
responseTimes.length`; on failure, increment `failedRequests` only.
Then the `finally` block: decrement `activeRequests`, shift the queue,
and resolve the shifted waiter if any — the resumed waiter immediately
re-increments `activeRequests` (line `this.activeRequests++` after its
await) before any other external event can run.  Only possible while
some call is active. -/
def bulkFinish (s : BulkheadState) (success : Bool) (rt : ℚ) : Option BulkheadState :=
  if 0 < s.activeRequests then
    let m :=
      if success then
        let rts := s.metrics.responseTimes ++ [rt]
        { s.metrics with
            successfulRequests := s.metrics.successfulRequests + 1
          , responseTimes := rts
          , averageResponseTime := rts.sum / (rts.length : ℚ) }
      else { s.metrics with failedRequests := s.metrics.failedRequests + 1 }
    match s.queuedRequests with
    | [] => some { s with metrics := m, activeRequests := s.activeRequests - 1 }
    | w :: rest =>
        some { s with
            metrics := m
          , activeRequests := s.activeRequests - 1 + 1
          , queuedRequests := rest
          , admittedLog := s.admittedLog ++ [w] }
  else none

/-- Atomic events on one bulkhead: the synchronous prefix of a new
`execute` call, or the completion of one of the active calls. -/
inductive BulkEvent where
  | call
  | finish (success : Bool) (rt : ℚ)
deriving Repr, DecidableEq

/-- One atomic bulkhead event. -/
def bulkStep (s : BulkheadState) : BulkEvent → Option BulkheadState
  | BulkEvent.call => some (bulkCall s).1
  | BulkEvent.finish b rt => bulkFinish s b rt

/-- Replay a sequence of bulkhead events. -/
def bulkRun (s : BulkheadState) : List BulkEvent → Option BulkheadState
  | [] => some s
  | e :: es =>
      match bulkStep s e with
      | some s1 => bulkRun s1 es
      | none => none

/-- Outcome of the synchronous arrival phase of one guarded gateway
call (`circuitBreaker.execute(() => bulkhead.execute(fn))`). -/
inductive GatewayResult where
  | circuitOpen
  | bulkheadRejected
  | queued
  | admitted
deriving Repr, DecidableEq

/-- The synchronous arrival phase of a combined-pattern route handler:
the breaker gate runs first; if it rejects, the wrapped function — the
bulkhead call — never runs.  If it allows, the bulkhead prefix runs; a
bulkhead capacity throw propagates to the breaker's `catch`, which calls
`onFailure` and rethrows. -/
def gatewayArrive (cb : CircuitBreaker) (bh : BulkheadState) (now : Nat) :
    CircuitBreaker × BulkheadState × GatewayResult :=
  match cbGate cb now with
  | (cb1, GateResult.reject) => (cb1, bh, GatewayResult.circuitOpen)
  | (cb1, GateResult.allow) =>
      match bulkCall bh with
      | (bh1, CallResult.rejected) => (onFailure cb1 now, bh1, GatewayResult.bulkheadRejected)
      | (bh1, CallResult.queued) => (cb1, bh1, GatewayResult.queued)
      | (bh1, CallResult.admitted) => (cb1, bh1, GatewayResult.admitted)

/-- The completion of a gateway call that was allowed and entered the
bulkhead: the bulkhead completion block runs, then the result or
exception propagates to the breaker, which records the outcome. -/
def gatewayFinish (cb : CircuitBreaker) (bh : BulkheadState) (success : Bool) (rt : ℚ)
    (now : Nat) : Option (CircuitBreaker × BulkheadState) :=
  (bulkFinish bh success rt).map fun bh1 =>
    ((if success then onSuccess cb now else onFailure cb now), bh1)

/-- The state invariant of one bulkhead: the active count stays within
`[0, maxConcurrent]`, the queue stays within `maxQueue`, and the
enqueue log splits as the admitted log followed by the current queue. -/
def BulkInv (s : BulkheadState) : Prop :=
  0 ≤ s.activeRequests ∧ s.activeRequests ≤ (s.maxConcurrent : Int) ∧
    s.queuedRequests.length ≤ s.maxQueue ∧
    s.arrivedLog = s.admittedLog ++ s.queuedRequests

theorem bulkInv_new (name : String) (mc mq : Nat) : BulkInv (bulkheadNew name mc mq) := by
  refine ⟨le_refl 0, ?_, ?_, rfl⟩ <;> simp [bulkheadNew]

theorem bulkStep_inv {s s' : BulkheadState} (hs : BulkInv s) {e : BulkEvent}
    (h : bulkStep s e = some s') :
    BulkInv s' ∧ s'.maxConcurrent = s.maxConcurrent ∧ s'.maxQueue = s.maxQueue := by
  obtain ⟨h0, hmc, hmq, hlog⟩ := hs
  cases e with
  | call =>
    simp only [bulkStep, Option.some.injEq] at h
    rw [bulkCall] at h
    split at h
    · exact h ▸ ⟨⟨h0, hmc, hmq, hlog⟩, rfl, rfl⟩
    · next hfull =>
      split at h
      · next hsat =>
        subst h
        have hq : s.queuedRequests.length < s.maxQueue := by
          by_contra hq
          exact hfull ⟨hsat, Nat.le_of_not_lt hq⟩
        refine ⟨⟨h0, hmc, ?_, ?_⟩, rfl, rfl⟩
        · show (s.queuedRequests ++ [s.nextWaiterId]).length ≤ s.maxQueue
          simp only [List.length_append, List.length_singleton]
          omega
        · show s.arrivedLog ++ [s.nextWaiterId] =
            s.admittedLog ++ (s.queuedRequests ++ [s.nextWaiterId])
          rw [hlog, List.append_assoc]
      · next hroom =>
        subst h
        have hlt : s.activeRequests < (s.maxConcurrent : Int) := lt_of_not_le hroom
        refine ⟨⟨?_, ?_, hmq, hlog⟩, rfl, rfl⟩
        · show 0 ≤ s.activeRequests + 1
          omega
        · show s.activeRequests + 1 ≤ (s.maxConcurrent : Int)
          omega
  | finish b rt =>
    simp only [bulkStep, bulkFinish] at h
    split at h
    · next hpos =>
      cases hq : s.queuedRequests with
      | nil =>
        rw [hq] at h
        simp only [Option.some.injEq] at h
        subst h
        rw [hq] at hlog
        refine ⟨⟨?_, ?_, ?_, hlog⟩, rfl, rfl⟩
        · show 0 ≤ s.activeRequests - 1
          omega
        · show s.activeRequests - 1 ≤ (s.maxConcurrent : Int)
          omega
        · show ([] : List Nat).length ≤ s.maxQueue
          simp
      | cons w rest =>
        rw [hq] at h
        simp only [Option.some.injEq] at h
        subst h
        rw [hq] at hmq hlog
        refine ⟨⟨?_, ?_, ?_, ?_⟩, rfl, rfl⟩
        · show 0 ≤ s.activeRequests - 1 + 1
          omega
        · show s.activeRequests - 1 + 1 ≤ (s.maxConcurrent : Int)
          omega
        · show rest.length ≤ s.maxQueue
          simp only [List.length_cons] at hmq
          omega
        · show s.arrivedLog = s.admittedLog ++ [w] ++ rest
          rw [hlog, List.append_assoc]
          rfl
    · exact absurd h (by simp)

theorem bulkRun_inv {tr : List BulkEvent} {s s' : BulkheadState} (hs : BulkInv s)
    (h : bulkRun s tr = some s') :
    BulkInv s' ∧ s'.maxConcurrent = s.maxConcurrent ∧ s'.maxQueue = s.maxQueue := by
  induction tr generalizing s with
  | nil =>
    simp only [bulkRun, Option.some.injEq] at h
    exact h ▸ ⟨hs, rfl, rfl⟩
  | cons e es ih =>
    simp only [bulkRun] at h
    split at h
    · next s1 hstep =>
      obtain ⟨h1, hmc1, hmq1⟩ := bulkStep_inv hs hstep
      obtain ⟨h2, hmc2, hmq2⟩ := ih h1 h
      exact ⟨h2, hmc2.trans hmc1, hmq2.trans hmq1⟩
    · exact absurd h (by simp)

/-- C1.  For every sequence of acquire/release events on one bulkhead
(starting from `new Bulkhead(name, mc, mq)`), the active-call count
`activeRequests` is never negative and never exceeds `maxConcurrent`,
and `queuedRequests.length` never exceeds `maxQueue`. -/
theorem bulkhead_bounds_invariant (name : String) (mc mq : Nat) (tr : List BulkEvent)
    (s : BulkheadState) (h : bulkRun (bulkheadNew name mc mq) tr = some s) :
    0 ≤ s.activeRequests ∧ s.activeRequests ≤ (mc : Int) ∧ s.queuedRequests.length ≤ mq := by
  obtain ⟨⟨h0, hmc, hmq, _⟩, hcm, hqm⟩ := bulkRun_inv (bulkInv_new name mc mq) h
  rw [hcm] at hmc
  rw [hqm] at hmq
  exact ⟨h0, hmc, hmq⟩

/-- Witness for C1: after two calls and a failed completion in a
bulkhead with `maxConcurrent = 1`, `maxQueue = 1`, the bounds hold at
the reached state. -/
theorem bulkhead_bounds_invariant_witness :
    0 ≤ ((bulkRun (bulkheadNew "slow-service" 1 1)
        [BulkEvent.call, BulkEvent.call, BulkEvent.finish false 4]).getD
          (bulkheadNew "slow-service" 1 1)).activeRequests ∧
      ((bulkRun (bulkheadNew "slow-service" 1 1)
        [BulkEvent.call, BulkEvent.call, BulkEvent.finish false 4]).getD
          (bulkheadNew "slow-service" 1 1)).activeRequests ≤ ((1 : Nat) : Int) ∧
      ((bulkRun (bulkheadNew "slow-service" 1 1)
        [BulkEvent.call, BulkEvent.call, BulkEvent.finish false 4]).getD
          (bulkheadNew "slow-service" 1 1)).queuedRequests.length ≤ 1 :=
  bulkhead_bounds_invariant "slow-service" 1 1
    [BulkEvent.call, BulkEvent.call, BulkEvent.finish false 4] _ (by decide)

/-- C2.  In every reachable bulkhead state, a call is rejected (the
`at capacity` throw) exactly when `activeRequests` equals
`maxConcurrent` and `queuedRequests.length` equals `maxQueue`; in every
other reachable state the caller is admitted or enqueued. -/
theorem bulkhead_rejection_iff_full (name : String) (mc mq : Nat) (tr : List BulkEvent)
    (s : BulkheadState) (h : bulkRun (bulkheadNew name mc mq) tr = some s) :
    (bulkCall s).2 = CallResult.rejected ↔
      (s.activeRequests = (mc : Int) ∧ s.queuedRequests.length = mq) := by
  obtain ⟨⟨h0, hmc, hmq, _⟩, hcm, hqm⟩ := bulkRun_inv (bulkInv_new name mc mq) h
  simp only [bulkheadNew] at hcm hqm
  rw [hcm] at hmc
  rw [hqm] at hmq
  rw [bulkCall]
  constructor
  · intro hrej
    split at hrej
    · next hfull =>
      obtain ⟨ha, hq⟩ := hfull
      rw [hcm] at ha
      rw [hqm] at hq
      exact ⟨le_antisymm hmc ha, le_antisymm hmq hq⟩
    · split at hrej <;> simp at hrej
  · intro hfull
    obtain ⟨ha, hq⟩ := hfull
    rw [if_pos ⟨by rw [ha, hcm], by rw [hq, hqm]⟩]

/-- Witness for C2: with `maxConcurrent = 1`, `maxQueue = 1`, after one
admitted call and one queued call the state is exactly full, and the
next call is rejected. -/
theorem bulkhead_rejection_iff_full_witness :
    ((bulkCall ((bulkRun (bulkheadNew "slow-service" 1 1)
        [BulkEvent.call, BulkEvent.call]).getD (bulkheadNew "slow-service" 1 1))).2 =
          CallResult.rejected ↔
      (((bulkRun (bulkheadNew "slow-service" 1 1)
        [BulkEvent.call, BulkEvent.call]).getD
          (bulkheadNew "slow-service" 1 1)).activeRequests = ((1 : Nat) : Int) ∧
        ((bulkRun (bulkheadNew "slow-service" 1 1)
        [BulkEvent.call, BulkEvent.call]).getD
          (bulkheadNew "slow-service" 1 1)).queuedRequests.length = 1)) :=
  bulkhead_rejection_iff_full "slow-service" 1 1 [BulkEvent.call, BulkEvent.call] _ (by decide)

/-- C3.  Queued callers are admitted in strict FIFO order: in every
reachable bulkhead state, the log of all waiters ever enqueued equals
the log of waiters already resumed by a release followed by the waiters
still queued, in arrival order — so waiters are resumed exactly in the
order they arrived. -/
theorem bulkhead_fifo_admission (name : String) (mc mq : Nat) (tr : List BulkEvent)
    (s : BulkheadState) (h : bulkRun (bulkheadNew name mc mq) tr = some s) :
    s.arrivedLog = s.admittedLog ++ s.queuedRequests := by
  obtain ⟨⟨_, _, _, hlog⟩, _, _⟩ := bulkRun_inv (bulkInv_new name mc mq) h
  exact hlog

/-- Witness for C3: with `maxConcurrent = 1`, `maxQueue = 2`, three
calls enqueue waiters 0 and 1; after one completion, waiter 0 has been
admitted and waiter 1 is still queued. -/
theorem bulkhead_fifo_admission_witness :
    ((bulkRun (bulkheadNew "fast-service" 1 2)
        [BulkEvent.call, BulkEvent.call, BulkEvent.call, BulkEvent.finish false 7]).getD
          (bulkheadNew "fast-service" 1 2)).arrivedLog =
      ((bulkRun (bulkheadNew "fast-service" 1 2)
        [BulkEvent.call, BulkEvent.call, BulkEvent.call, BulkEvent.finish false 7]).getD
          (bulkheadNew "fast-service" 1 2)).admittedLog ++
        ((bulkRun (bulkheadNew "fast-service" 1 2)
        [BulkEvent.call, BulkEvent.call, BulkEvent.call, BulkEvent.finish false 7]).getD
          (bulkheadNew "fast-service" 1 2)).queuedRequests :=
  bulkhead_fifo_admission "fast-service" 1 2
    [BulkEvent.call, BulkEvent.call, BulkEvent.call, BulkEvent.finish false 7] _ (by decide)

theorem onFailure_eq_of_below (cb : CircuitBreaker) (t : Nat)
    (h : cb.failureCount + 1 < cb.failureThreshold) :
    onFailure cb t =
      { cb with
          failureCount := cb.failureCount + 1
        , metrics := { cb.metrics with totalFailures := cb.metrics.totalFailures + 1 } } := by
  simp only [onFailure]
  rw [if_neg (by omega)]

theorem onFailure_eq_of_reach (cb : CircuitBreaker) (t : Nat)
    (h : cb.failureThreshold ≤ cb.failureCount + 1) :
    onFailure cb t =
      { cb with
          state := CBState.opened
        , failureCount := cb.failureCount + 1
        , nextAttempt := t + cb.timeout
        , metrics := { cb.metrics with
            totalFailures := cb.metrics.totalFailures + 1
          , stateChanges := cb.metrics.stateChanges ++ [(CBState.opened, t)] } } := by
  simp only [onFailure, changeState]
  rw [if_pos (by omega)]

theorem recordFailures_stays_closed : ∀ (ts : List Nat) (cb : CircuitBreaker),
    cb.state = CBState.closed → cb.failureCount + ts.length < cb.failureThreshold →
    (recordFailures cb ts).state = CBState.closed ∧
      (recordFailures cb ts).failureCount = cb.failureCount + ts.length := by
  intro ts
  induction ts with
  | nil => intro cb hc _; exact ⟨hc, rfl⟩
  | cons t rest ih =>
    intro cb hc hlt
    simp only [List.length_cons] at hlt
    have hstep := onFailure_eq_of_below cb t (by omega)
    have hrec : recordFailures cb (t :: rest) = recordFailures (onFailure cb t) rest := rfl
    rw [hrec, hstep]
    have := ih { cb with
        failureCount := cb.failureCount + 1
      , metrics := { cb.metrics with totalFailures := cb.metrics.totalFailures + 1 } }
      hc (by simpa using by omega)
    refine ⟨this.1, ?_⟩
    rw [this.2]
    simp only [List.length_cons]
    omega

theorem recordFailures_opens : ∀ (ts : List Nat) (cb : CircuitBreaker) (hne : ts ≠ []),
    cb.state = CBState.closed → cb.failureCount + ts.length = cb.failureThreshold →
    (recordFailures cb ts).state = CBState.opened ∧
      (recordFailures cb ts).nextAttempt = ts.getLast hne + cb.timeout := by
  intro ts
  induction ts with
  | nil => intro cb hne; exact absurd rfl hne
  | cons t rest ih =>
    intro cb hne hc heq
    have hrec : recordFailures cb (t :: rest) = recordFailures (onFailure cb t) rest := rfl
    cases rest with
    | nil =>
      simp only [List.length_cons, List.length_nil] at heq
      have hstep := onFailure_eq_of_reach cb t (by omega)
      rw [hrec, hstep]
      exact ⟨rfl, rfl⟩
    | cons t2 rest2 =>
      simp only [List.length_cons] at heq
      have hstep := onFailure_eq_of_below cb t (by omega)
      rw [hrec, hstep]
      have hne2 : t2 :: rest2 ≠ [] := by simp
      have := ih { cb with
          failureCount := cb.failureCount + 1
        , metrics := { cb.metrics with totalFailures := cb.metrics.totalFailures + 1 } }
        hne2 hc (by simp only [List.length_cons] at heq ⊢; omega)
      refine ⟨this.1, ?_⟩
      rw [this.2, List.getLast_cons hne2]

/-- C4.  From the Closed state with `failureCount = 0`: recording fewer
than `failureThreshold` consecutive failures leaves the state Closed with
`failureCount` equal to the number of failures; recording exactly
`failureThreshold` consecutive failures moves the state to Open and sets
`nextAttempt` to the time of the last failure plus `timeout`; any
success recorded in Closed leaves the state Closed and resets
`failureCount` to 0. -/
theorem breaker_closed_transitions (cb : CircuitBreaker) (hc : cb.state = CBState.closed)
    (h0 : cb.failureCount = 0) (ts1 ts2 : List Nat) (t : Nat)
    (hlt : ts1.length < cb.failureThreshold) (hne : ts2 ≠ [])
    (hlen : ts2.length = cb.failureThreshold) :
    ((recordFailures cb ts1).state = CBState.closed ∧
      (recordFailures cb ts1).failureCount = ts1.length) ∧
    ((recordFailures cb ts2).state = CBState.opened ∧
      (recordFailures cb ts2).nextAttempt = ts2.getLast hne + cb.timeout) ∧
    ((onSuccess cb t).state = CBState.closed ∧ (onSuccess cb t).failureCount = 0) := by
  refine ⟨?_, ?_, ?_⟩
  · have := recordFailures_stays_closed ts1 cb hc (by omega)
    rw [h0] at this
    simpa using this
  · exact recordFailures_opens ts2 cb hne hc (by omega)
  · constructor
    · simp only [onSuccess]
      rw [if_neg (by rw [hc]; simp)]
      exact hc
    · simp only [onSuccess]
      rw [if_neg (by rw [hc]; simp)]

/-- Witness for C4: the slow-service breaker (`threshold = 3`,
`timeout = 20000`): two failures leave it Closed with count 2; a third
consecutive failure opens it with `nextAttempt = 30 + 20000`; a success
in Closed resets the count. -/
theorem breaker_closed_transitions_witness :
    ((recordFailures (cbNew "slow-service" 3 20000 0) [10, 20]).state = CBState.closed ∧
      (recordFailures (cbNew "slow-service" 3 20000 0) [10, 20]).failureCount =
        ([10, 20] : List Nat).length) ∧
    ((recordFailures (cbNew "slow-service" 3 20000 0) [10, 20, 30]).state = CBState.opened ∧
      (recordFailures (cbNew "slow-service" 3 20000 0) [10, 20, 30]).nextAttempt =
        ([10, 20, 30] : List Nat).getLast (by simp) + (cbNew "slow-service" 3 20000 0).timeout) ∧
    ((onSuccess (cbNew "slow-service" 3 20000 0) 99).state = CBState.closed ∧
      (onSuccess (cbNew "slow-service" 3 20000 0) 99).failureCount = 0) :=
  breaker_closed_transitions (cbNew "slow-service" 3 20000 0) rfl rfl [10, 20] [10, 20, 30] 99
    (by decide) (by simp) (by decide)

/-- C5.  While the state is Open: a call gated strictly before
`nextAttempt` is rejected — the gate returns `reject`, the state is
still Open, the wrapped function never runs (`rejectedOpen`), and the
breaker changes only its attempt/rejection counters; a call gated at or
after `nextAttempt` moves the state to HalfOpen, the gate allows it, and
the wrapped function runs as a trial. -/
theorem breaker_open_gate (cb : CircuitBreaker) (t1 t2 t3 t4 : Nat) (b : Bool)
    (hopen : cb.state = CBState.opened) (h1 : t1 < cb.nextAttempt) (h2 : cb.nextAttempt ≤ t2) :
    ((cbGate cb t1).2 = GateResult.reject ∧
      (cbGate cb t1).1.state = CBState.opened ∧
      cbExecute cb t1 t3 b = ((cbGate cb t1).1, CBCallResult.rejectedOpen) ∧
      (cbGate cb t1).1 = { cb with metrics := { cb.metrics with
          totalAttempts := cb.metrics.totalAttempts + 1
        , totalRejections := cb.metrics.totalRejections + 1 } }) ∧
    ((cbGate cb t2).2 = GateResult.allow ∧
      (cbGate cb t2).1.state = CBState.halfOpen ∧
      (cbExecute cb t2 t4 b).2 = CBCallResult.ran b) := by
  have hg1 : cbGate cb t1 =
      ({ cb with metrics := { cb.metrics with
          totalAttempts := cb.metrics.totalAttempts + 1
        , totalRejections := cb.metrics.totalRejections + 1 } }, GateResult.reject) := by
    simp only [cbGate]
    rw [if_pos (by exact hopen), if_pos (by exact h1)]
  have hg2 : cbGate cb t2 =
      (changeState { cb with metrics := { cb.metrics with
          totalAttempts := cb.metrics.totalAttempts + 1 } } CBState.halfOpen t2,
        GateResult.allow) := by
    simp only [cbGate]
    rw [if_pos (by exact hopen), if_neg (by omega)]
  refine ⟨⟨by rw [hg1], by rw [hg1]; exact hopen, ?_, by rw [hg1]⟩,
    ⟨by rw [hg2], by rw [hg2]; rfl, ?_⟩⟩
  · rw [cbExecute, hg1]
  · rw [cbExecute, hg2]

/-- The slow-service breaker just after its three opening failures:
state Open, `nextAttempt = 3 + 20000`. -/
def slowBreakerOpen : CircuitBreaker :=
  recordFailures (cbNew "slow-service" 3 20000 0) [1, 2, 3]

/-- The slow-service breaker gated to HalfOpen after the cooldown. -/
def slowBreakerHalfOpen : CircuitBreaker := (cbGate slowBreakerOpen 20003).1

/-- Witness for C5: the slow-service breaker in the Open state with
`nextAttempt = 20003`: a call at time 100 is rejected without running
the operation; a call at time 20003 is allowed and gated to HalfOpen. -/
theorem breaker_open_gate_witness :
    ((cbGate slowBreakerOpen 100).2 = GateResult.reject ∧
      (cbGate slowBreakerOpen 100).1.state = CBState.opened ∧
      cbExecute slowBreakerOpen 100 5000 true =
        ((cbGate slowBreakerOpen 100).1, CBCallResult.rejectedOpen) ∧
      (cbGate slowBreakerOpen 100).1 =
        { slowBreakerOpen with metrics := { slowBreakerOpen.metrics with
            totalAttempts := slowBreakerOpen.metrics.totalAttempts + 1
          , totalRejections := slowBreakerOpen.metrics.totalRejections + 1 } }) ∧
    ((cbGate slowBreakerOpen 20003).2 = GateResult.allow ∧
      (cbGate slowBreakerOpen 20003).1.state = CBState.halfOpen ∧
      (cbExecute slowBreakerOpen 20003 20100 true).2 = CBCallResult.ran true) :=
  breaker_open_gate slowBreakerOpen 100 20003 5000 20100 true
    (by decide) (by decide) (by decide)

/-- C6 (amended).  In the HalfOpen state: a successful trial moves the
state to Closed and resets `failureCount` to 0; a failing trial moves
the state back to Open exactly when the incremented failure count
reaches `failureThreshold` (which holds whenever no success outcome was
recorded while the circuit was Open), and in that case restarts the
cooldown, `nextAttempt = now + timeout`; otherwise the state remains
HalfOpen. -/
theorem breaker_halfOpen_trial (cb : CircuitBreaker) (t : Nat)
    (h : cb.state = CBState.halfOpen) :
    ((onSuccess cb t).state = CBState.closed ∧ (onSuccess cb t).failureCount = 0) ∧
    ((onFailure cb t).state = CBState.opened ↔ cb.failureThreshold ≤ cb.failureCount + 1) ∧
    (cb.failureThreshold ≤ cb.failureCount + 1 →
      (onFailure cb t).nextAttempt = t + cb.timeout) := by
  refine ⟨⟨?_, ?_⟩, ?_, ?_⟩
  · simp only [onSuccess]
    rw [if_pos (by exact h)]
    rfl
  · simp only [onSuccess]
    rw [if_pos (by exact h)]
    rfl
  · constructor
    · intro hst
      by_contra hlt
      rw [onFailure_eq_of_below cb t (by omega)] at hst
      rw [show ({ cb with
          failureCount := cb.failureCount + 1
        , metrics := { cb.metrics with
            totalFailures := cb.metrics.totalFailures + 1 } } : CircuitBreaker).state =
          cb.state from rfl, h] at hst
      exact absurd hst (by simp)
    · intro hge
      rw [onFailure_eq_of_reach cb t hge]
  · intro hge
    rw [onFailure_eq_of_reach cb t hge]

/-- Witness for C6 (amended): the HalfOpen slow-service breaker still
carrying `failureCount = 3` at `threshold = 3`: a success closes it and
zeroes the count; a failure at time 20050 reopens it with
`nextAttempt = 20050 + 20000`. -/
theorem breaker_halfOpen_trial_witness :
    ((onSuccess slowBreakerHalfOpen 20050).state = CBState.closed ∧
      (onSuccess slowBreakerHalfOpen 20050).failureCount = 0) ∧
    ((onFailure slowBreakerHalfOpen 20050).state = CBState.opened ↔
      slowBreakerHalfOpen.failureThreshold ≤ slowBreakerHalfOpen.failureCount + 1) ∧
    (slowBreakerHalfOpen.failureThreshold ≤ slowBreakerHalfOpen.failureCount + 1 →
      (onFailure slowBreakerHalfOpen 20050).nextAttempt =
        20050 + slowBreakerHalfOpen.timeout) :=
  breaker_halfOpen_trial slowBreakerHalfOpen 20050 (by decide)

/-- Counterexample for C6 as stated: a reachable interleaving of the
slow-service breaker (`threshold = 3`, `timeout = 20000`) in which a
slow successful call completes while the circuit is Open, resetting
`failureCount` to 0 without closing; the HalfOpen state reached after
the cooldown then survives a failing trial — the failing trial leaves
the state HalfOpen instead of moving it back to Open. -/
theorem breaker_halfOpen_trial_counterexample :
    ((cbSysRun { breaker := cbNew "slow-service" 3 20000 0, pendingOutcomes := 0 }
        [CBEvent.gate 0, CBEvent.gate 0, CBEvent.gate 0, CBEvent.gate 0,
         CBEvent.outcome false 1, CBEvent.outcome false 2, CBEvent.outcome false 3,
         CBEvent.outcome true 4, CBEvent.gate 20003]).map
        (fun s => (s.breaker.state, s.breaker.failureCount)) =
      some (CBState.halfOpen, 0)) ∧
    ((cbSysRun { breaker := cbNew "slow-service" 3 20000 0, pendingOutcomes := 0 }
        [CBEvent.gate 0, CBEvent.gate 0, CBEvent.gate 0, CBEvent.gate 0,
         CBEvent.outcome false 1, CBEvent.outcome false 2, CBEvent.outcome false 3,
         CBEvent.outcome true 4, CBEvent.gate 20003, CBEvent.outcome false 20004]).map
        (fun s => s.breaker.state) =
      some CBState.halfOpen) := by
  exact ⟨by decide, by decide⟩

theorem onFailure_failureCount (cb : CircuitBreaker) (t : Nat) :
    (onFailure cb t).failureCount = cb.failureCount + 1 := by
  simp only [onFailure, changeState]
  split <;> rfl

theorem cbGate_eq_of_reject {cb : CircuitBreaker} (now : Nat)
    (hopen : cb.state = CBState.opened) (hlt : now < cb.nextAttempt) :
    cbGate cb now =
      ({ cb with metrics := { cb.metrics with
          totalAttempts := cb.metrics.totalAttempts + 1
        , totalRejections := cb.metrics.totalRejections + 1 } }, GateResult.reject) := by
  simp only [cbGate]
  rw [if_pos (by exact hopen), if_pos (by exact hlt)]

theorem cbGate_eq_of_closed {cb : CircuitBreaker} (now : Nat)
    (hc : cb.state = CBState.closed) :
    cbGate cb now =
      ({ cb with metrics := { cb.metrics with
          totalAttempts := cb.metrics.totalAttempts + 1 } }, GateResult.allow) := by
  simp only [cbGate]
  rw [if_neg (by rw [show ({ cb with metrics := { cb.metrics with
      totalAttempts := cb.metrics.totalAttempts + 1 } } : CircuitBreaker).state =
    cb.state from rfl, hc]; simp)]

/-- C7.  Fail-fast ordering: when the breaker gate rejects a combined
gateway call with the circuit-open error, the wrapped operation — the
bulkhead call — never runs: the bulkhead state, its `activeRequests`,
`queuedRequests` and every metrics counter, is returned unchanged, and
the breaker stays Open. -/
theorem gateway_failfast_frame (cb : CircuitBreaker) (bh : BulkheadState) (now : Nat)
    (hopen : cb.state = CBState.opened) (hlt : now < cb.nextAttempt) :
    (gatewayArrive cb bh now).2.1 = bh ∧
      (gatewayArrive cb bh now).2.2 = GatewayResult.circuitOpen ∧
      (gatewayArrive cb bh now).1.state = CBState.opened := by
  unfold gatewayArrive
  rw [cbGate_eq_of_reject now hopen hlt]
  exact ⟨rfl, rfl, hopen⟩

/-- Witness for C7: the Open slow-service breaker rejecting a call at
time 100 leaves a fresh slow-service bulkhead exactly unchanged. -/
theorem gateway_failfast_frame_witness :
    (gatewayArrive slowBreakerOpen (bulkheadNew "slow-service" 5 10) 100).2.1 =
        bulkheadNew "slow-service" 5 10 ∧
      (gatewayArrive slowBreakerOpen (bulkheadNew "slow-service" 5 10) 100).2.2 =
        GatewayResult.circuitOpen ∧
      (gatewayArrive slowBreakerOpen (bulkheadNew "slow-service" 5 10) 100).1.state =
        CBState.opened :=
  gateway_failfast_frame slowBreakerOpen (bulkheadNew "slow-service" 5 10) 100
    (by decide) (by decide)

/-- C8 (amended).  A breaker-open rejection does not touch the failure
counter, and a recorded failing outcome of a call that ran increments
it; but a `CapacityExceeded` bulkhead rejection is *also* recorded as a
failure: the capacity throw propagates through the breaker's `catch`,
which calls `onFailure` and increments the consecutive-failure counter
by 1. -/
theorem breaker_counts_capacity_rejections (cb1 cb2 : CircuitBreaker) (bh : BulkheadState)
    (now : Nat) (rt : ℚ)
    (h1 : cb1.state = CBState.closed) (hrej : (bulkCall bh).2 = CallResult.rejected)
    (h2 : cb2.state = CBState.opened) (h2t : now < cb2.nextAttempt)
    (hact : 0 < bh.activeRequests) :
    (gatewayArrive cb1 bh now).1.failureCount = cb1.failureCount + 1 ∧
      (gatewayArrive cb2 bh now).1.failureCount = cb2.failureCount ∧
      (gatewayFinish cb1 bh false rt now).map (fun p => p.1.failureCount) =
        some (cb1.failureCount + 1) := by
  have hbc : bulkCall bh = ((bulkCall bh).1, CallResult.rejected) := by
    rw [← hrej]
  refine ⟨?_, ?_, ?_⟩
  · unfold gatewayArrive
    rw [cbGate_eq_of_closed now h1, hbc]
    exact onFailure_failureCount _ now
  · unfold gatewayArrive
    rw [cbGate_eq_of_reject now h2 h2t]
  · unfold gatewayFinish
    cases hbf : bulkFinish bh false rt with
    | none =>
      exfalso
      rw [bulkFinish, if_pos hact] at hbf
      revert hbf
      cases bh.queuedRequests <;> simp
    | some bh1 =>
      simp [onFailure_failureCount]

/-- A small saturated bulkhead (`maxConcurrent = 1`, `maxQueue = 0`)
with one active call: the next call is rejected. -/
def bhFullSmall : BulkheadState :=
  (bulkRun (bulkheadNew "slow-service" 1 0) [BulkEvent.call]).getD
    (bulkheadNew "slow-service" 1 0)

/-- Witness for C8 (amended): against the saturated `bhFullSmall`, a
Closed breaker has its failure count pushed from its current value to
current + 1 by the capacity rejection; an Open breaker rejecting at time
50 keeps its count; a recorded failing completion increments it. -/
theorem breaker_counts_capacity_rejections_witness :
    (gatewayArrive (cbNew "slow-service" 3 20000 0) bhFullSmall 50).1.failureCount =
        (cbNew "slow-service" 3 20000 0).failureCount + 1 ∧
      (gatewayArrive slowBreakerOpen bhFullSmall 50).1.failureCount =
        slowBreakerOpen.failureCount ∧
      (gatewayFinish (cbNew "slow-service" 3 20000 0) bhFullSmall false 4 50).map
          (fun p => p.1.failureCount) =
        some ((cbNew "slow-service" 3 20000 0).failureCount + 1) := by
  have h := breaker_counts_capacity_rejections (cbNew "slow-service" 3 20000 0)
    slowBreakerOpen bhFullSmall 50 4 (by decide) (by decide) (by decide) (by decide) (by decide)
  exact h

/-- Counterexample for C8 as stated: a saturated slow-service bulkhead
(5 active, 10 queued) rejects the 16th call; the rejection propagates to
the Closed slow-service breaker, whose `failureCount` rises from 0 to 1
— the claim says a `CapacityExceeded` rejection is never recorded as a
failure outcome. -/
theorem breaker_counts_capacity_rejections_counterexample :
    (cbNew "slow-service" 3 20000 0).failureCount = 0 ∧
      (bulkRun (bulkheadNew "slow-service" 5 10) (List.replicate 15 BulkEvent.call)).map
        (fun bh => ((bulkCall bh).2,
          (gatewayArrive (cbNew "slow-service" 3 20000 0) bh 50).1.failureCount)) =
        some (CallResult.rejected, 1) := by
  exact ⟨rfl, by decide⟩

/-- C9 (amended).  On a successful completion, `successfulRequests` is
incremented, the response-time sample is pushed, and
`averageResponseTime` is recomputed as the arithmetic mean of all
recorded samples; on a failing completion only `failedRequests` is
incremented — no sample is recorded and the average is left unchanged.
Every call increments `totalRequests`, and a rejected call additionally
increments `rejectedRequests`. -/
theorem bulkhead_metrics_updates (bh : BulkheadState) (rt : ℚ)
    (hact : 0 < bh.activeRequests) :
    ((bulkFinish bh true rt).map (fun b1 => b1.metrics.successfulRequests) =
        some (bh.metrics.successfulRequests + 1) ∧
      (bulkFinish bh true rt).map (fun b1 => b1.metrics.responseTimes) =
        some (bh.metrics.responseTimes ++ [rt]) ∧
      (bulkFinish bh true rt).map (fun b1 => b1.metrics.averageResponseTime) =
        some ((bh.metrics.responseTimes ++ [rt]).sum /
          ((bh.metrics.responseTimes ++ [rt]).length : ℚ)) ∧
      (bulkFinish bh true rt).map (fun b1 => b1.metrics.failedRequests) =
        some bh.metrics.failedRequests) ∧
    ((bulkFinish bh false rt).map (fun b1 => b1.metrics.failedRequests) =
        some (bh.metrics.failedRequests + 1) ∧
      (bulkFinish bh false rt).map (fun b1 => b1.metrics.responseTimes) =
        some bh.metrics.responseTimes ∧
      (bulkFinish bh false rt).map (fun b1 => b1.metrics.averageResponseTime) =
        some bh.metrics.averageResponseTime) ∧
    ((bulkCall bh).1.metrics.totalRequests = bh.metrics.totalRequests + 1) ∧
    ((bulkCall bh).2 = CallResult.rejected →
      (bulkCall bh).1.metrics.rejectedRequests = bh.metrics.rejectedRequests + 1) := by
  refine ⟨?_, ?_, ?_, ?_⟩
  · simp only [bulkFinish, if_pos hact]
    cases bh.queuedRequests <;> simp
  · simp only [bulkFinish, if_pos hact]
    cases bh.queuedRequests <;> simp
  · simp only [bulkCall]
    split_ifs <;> rfl
  · intro hrej
    simp only [bulkCall] at hrej ⊢
    split_ifs at hrej ⊢; simp_all

/-- Witness for C9 (amended): on `bhFullSmall` (one active call), a
successful completion with sample 4 records the sample and sets the
average to the mean; a failing completion increments only
`failedRequests`; a further call is counted and, being rejected,
increments `rejectedRequests`. -/
theorem bulkhead_metrics_updates_witness :
    ((bulkFinish bhFullSmall true 4).map (fun b1 => b1.metrics.successfulRequests) =
        some (bhFullSmall.metrics.successfulRequests + 1) ∧
      (bulkFinish bhFullSmall true 4).map (fun b1 => b1.metrics.responseTimes) =
        some (bhFullSmall.metrics.responseTimes ++ [4]) ∧
      (bulkFinish bhFullSmall true 4).map (fun b1 => b1.metrics.averageResponseTime) =
        some ((bhFullSmall.metrics.responseTimes ++ [4]).sum /
          ((bhFullSmall.metrics.responseTimes ++ [4]).length : ℚ)) ∧
      (bulkFinish bhFullSmall true 4).map (fun b1 => b1.metrics.failedRequests) =
        some bhFullSmall.metrics.failedRequests) ∧
    ((bulkFinish bhFullSmall false 4).map (fun b1 => b1.metrics.failedRequests) =
        some (bhFullSmall.metrics.failedRequests + 1) ∧
      (bulkFinish bhFullSmall false 4).map (fun b1 => b1.metrics.responseTimes) =
        some bhFullSmall.metrics.responseTimes ∧
      (bulkFinish bhFullSmall false 4).map (fun b1 => b1.metrics.averageResponseTime) =
        some bhFullSmall.metrics.averageResponseTime) ∧
    ((bulkCall bhFullSmall).1.metrics.totalRequests = bhFullSmall.metrics.totalRequests + 1) ∧
    ((bulkCall bhFullSmall).2 = CallResult.rejected →
      (bulkCall bhFullSmall).1.metrics.rejectedRequests =
        bhFullSmall.metrics.rejectedRequests + 1) :=
  bulkhead_metrics_updates bhFullSmall 4 (by decide)

/-- Counterexample for C9 as stated: one call is admitted and completes
with a failure; the completed call records *no* response-time sample
(`responseTimes` stays empty, `averageResponseTime` stays 0) even though
the claim requires a sample on every completed call, success or
failure. -/
theorem bulkhead_metrics_updates_counterexample :
    (bulkRun (bulkheadNew "slow-service" 5 10)
        [BulkEvent.call, BulkEvent.finish false 100]).map
      (fun b1 => (b1.metrics.failedRequests, b1.metrics.responseTimes.length,
        b1.metrics.averageResponseTime)) = some (1, 0, (0 : ℚ)) := by
  decide

/-- C10.  A call rejected by the bulkhead leaves the admission state
exactly unchanged — same `activeRequests`, same `queuedRequests` — while
`totalRequests` and `rejectedRequests` each rise by exactly 1 and no
other field changes: the post-state is the pre-state with only those two
counters bumped. -/
theorem bulkhead_reject_frame (bh : BulkheadState)
    (hrej : (bulkCall bh).2 = CallResult.rejected) :
    (bulkCall bh).1 = { bh with metrics := { bh.metrics with
        totalRequests := bh.metrics.totalRequests + 1
      , rejectedRequests := bh.metrics.rejectedRequests + 1 } } := by
  simp only [bulkCall] at hrej ⊢
  split_ifs at hrej ⊢; simp_all

/-- Witness for C10: the saturated `bhFullSmall` rejects the next call,
and the post-state equals the pre-state with exactly `totalRequests`
and `rejectedRequests` incremented. -/
theorem bulkhead_reject_frame_witness :
    (bulkCall bhFullSmall).1 = { bhFullSmall with metrics := { bhFullSmall.metrics with
        totalRequests := bhFullSmall.metrics.totalRequests + 1
      , rejectedRequests := bhFullSmall.metrics.rejectedRequests + 1 } } :=
  bulkhead_reject_frame bhFullSmall (by decide)

end MicroPatterns
